import Mathlib

/-!
Verification development for the coffee-shop MCP demo: a line-delimited
JSON-RPC server (`server/src/index copy.ts`) and two interactive clients
(`client/src/client.ts`, `client/src/client_open_ai.ts`) that drive a
tool-calling orchestration loop.

The embedding is shallow: each TypeScript value or function is translated
into a Lean definition.  JSON documents are modelled structurally (the wire
envelope becomes an inductive with one constructor per shape the code can
produce); `JSON.parse` of an arbitrary inbound line is modelled by
classifying the line as either a structurally valid envelope or a malformed
line on which parsing throws.
-/

namespace MCP

/-! ## Server data (`server/src/index copy.ts`, lines 4-44) -/

/-- One entry of the `drinks` array. -/
structure Drink where
  name : String
  price : Nat
  description : String
deriving DecidableEq, Repr

/-- The `drinks` constant of the server. -/
def drinks : List Drink :=
  [ ⟨"Latte", 5, "A latte is a coffee drink made with espresso and steamed milk."⟩,
    ⟨"Mocha", 6, "A mocha is a coffee drink made with espresso and chocolate."⟩,
    ⟨"Flat White", 7, "A flat white is a coffee drink made with espresso and steamed milk."⟩ ]

/-- The `serverInfo` constant. -/
structure ServerInfoT where
  name : String
  version : String
deriving DecidableEq, Repr

def serverInfo : ServerInfoT := ⟨"Coffee Shop Server", "1.0.0"⟩

/-- One property of a tool input schema: property name and its `type` string. -/
structure PropDecl where
  name : String
  type : String
deriving DecidableEq, Repr

/-- The `inputSchema` objects of the two tools.  `getDrinkNames` has no
`required` key in the source; an absent key is modelled as the empty list. -/
structure InputSchemaT where
  type : String
  properties : List PropDecl
  required : List String
deriving DecidableEq, Repr

/-- The declarative part of a server tool: what `tools/list` exposes. -/
structure ToolDecl where
  name : String
  description : String
  inputSchema : InputSchemaT
deriving DecidableEq, Repr

/-- Which `execute` closure a server tool carries. -/
inductive ToolImpl where
  | getDrinkNames
  | getDrinkInfo
deriving DecidableEq, Repr

structure ServerTool where
  decl : ToolDecl
  impl : ToolImpl
deriving DecidableEq, Repr

/-- The `tools` constant of the server (declarative parts). -/
def tools : List ServerTool :=
  [ ⟨⟨"getDrinkNames", "Get the names of the drinks in the shop",
      ⟨"object", [], []⟩⟩, .getDrinkNames⟩,
    ⟨⟨"getDrinkInfo", "Get more info about the drink",
      ⟨"object", [⟨"name", "string"⟩], ["name"]⟩⟩, .getDrinkInfo⟩ ]

/-- Declarative part of a server resource (what `resources/list` exposes). -/
structure ResourceDecl where
  uri : String
  name : String
deriving DecidableEq, Repr

/-- The `resources` constant of the server (declarative parts). -/
def resources : List ResourceDecl := [⟨"menu://app", "menu"⟩]

/-- Mutable-looking server data threaded through request handling (the code
keeps these in module-level constants and no handler reassigns them). -/
structure ServerState where
  drinks : List Drink
  tools : List ServerTool
  resources : List ResourceDecl
deriving DecidableEq, Repr

def initServerState : ServerState := ⟨drinks, tools, resources⟩

/-! ## JSON strings produced by the server

`JSON.stringify` output for the concrete objects the server serializes.
Key order follows object-literal insertion order; none of the embedded
strings need escaping. -/

def drinkJson (d : Drink) : String :=
  "\x7b\"name\":\"" ++ d.name ++ "\",\"price\":" ++ Nat.repr d.price ++
    ",\"description\":\"" ++ d.description ++ "\"\x7d"

def notFoundJson : String := "\x7b\"error\":\"Drink not found\"\x7d"

def namesJson (ds : List Drink) : String :=
  "\x7b\"names\":[" ++ String.intercalate "," (ds.map (fun d => "\"" ++ d.name ++ "\"")) ++ "]\x7d"

def drinksArrayJson (ds : List Drink) : String :=
  "[" ++ String.intercalate "," (ds.map drinkJson) ++ "]"

/-! ## String normalisation (`getDrinkInfo.execute`, lines 89-91)

`normalize(str)` is `(str || "").toLowerCase().replace(/[^a-z0-9]/gi, "")`.
The data and the claims are ASCII, where JavaScript `toLowerCase` is the
byte-wise mapping below. -/

/-- ASCII lowering, the effect of `toLowerCase` on the relevant inputs. -/
def jsToLower (c : Char) : Char :=
  if 'A' ≤ c && c ≤ 'Z' then Char.ofNat (c.toNat + 32) else c

/-- Membership in the regex class `[a-z0-9]` with the `i` flag. -/
def keepAlnum (c : Char) : Bool :=
  ('a' ≤ c && c ≤ 'z') || ('A' ≤ c && c ≤ 'Z') || ('0' ≤ c && c ≤ '9')

/-- `normalize` of the source, on an already-defined string. -/
def normalize (s : String) : String :=
  String.mk ((s.data.map jsToLower).filter keepAlnum)

/-- JavaScript `str || ""` for a possibly-undefined string. -/
def strOrEmpty : Option String → String
  | none => ""
  | some s => s

/-- JavaScript template-literal rendering of a possibly-undefined string. -/
def strOrUndef : Option String → String
  | none => "undefined"
  | some s => s

/-! ## Wire format -/

/-- The `arguments` object of a `tools/call` request, as read by the tools:
`getDrinkInfo` reads `args.name`, `getDrinkNames` ignores `args`. -/
structure ToolArgs where
  name : Option String := none
deriving DecidableEq, Repr

/-- The `params` object fields the server reads. -/
structure Params where
  name : Option String := none
  arguments : ToolArgs := {}
  uri : Option String := none
deriving DecidableEq, Repr

/-- A parsed inbound request line. -/
structure Request where
  jsonrpc : String
  id : Option Int
  method : String
  params : Params
deriving DecidableEq, Repr

structure CapFlags where
  listChanged : Bool
deriving DecidableEq, Repr

structure Capabilities where
  tools : CapFlags
  resources : CapFlags
deriving DecidableEq, Repr

structure ContentItem where
  type : String
  text : String
deriving DecidableEq, Repr

structure ResContent where
  uri : String
  text : String
deriving DecidableEq, Repr

/-- Every `result` payload the server can place in a response. -/
inductive ResultPayload where
  | initResult (protocolVersion : String) (capabilities : Capabilities) (info : ServerInfoT)
  | toolsList (tools : List ToolDecl)
  | resourcesList (resources : List ResourceDecl)
  | toolContent (content : List ContentItem)
  | contents (contents : List ResContent)
  | errorObj (code : Int) (message : String)
  | emptyObj
deriving DecidableEq, Repr

/-- A JSON-RPC response envelope in the two wire shapes of the spec:
`{jsonrpc,id,result}` or `{jsonrpc,id,error:{code,message}}`. -/
inductive WireResponse where
  | result (id : Option Int) (payload : ResultPayload)
  | error (id : Option Int) (code : Int) (message : String)
deriving DecidableEq, Repr

/-- Whether an envelope carries a top-level `error` field. -/
def WireResponse.isErrorEnvelope : WireResponse → Bool
  | .result _ _ => false
  | .error _ _ _ => true

/-- `sendResponse(id, result)` (lines 51-58): always builds
`{result, jsonrpc: "2.0", id}`, i.e. a top-level `result` envelope. -/
def sendResponse (id : Option Int) (result : ResultPayload) : WireResponse :=
  .result id result

/-- One line written by the server to stdout: either a debug `console.log`
(not a JSON document) or a `sendResponse` line. -/
inductive OutLine where
  | debug (text : String)
  | response (w : WireResponse)
deriving DecidableEq, Repr

/-! ## Tool execution (`tools` array, lines 60-118) -/

/-- Case-insensitive, punctuation-insensitive drink lookup of
`getDrinkInfo.execute`: `drinks.find((drink) => normalize(drink.name) === inputName)`
with `inputName = normalize(args.name)`. -/
def drinkLookup (ds : List Drink) (argName : Option String) : Option Drink :=
  ds.find? (fun d => normalize d.name = normalize (strOrEmpty argName))

/-- The text of the single content item `getDrinkInfo` returns. -/
def getDrinkInfoText (ds : List Drink) (argName : Option String) : String :=
  match drinkLookup ds argName with
  | some d => drinkJson d
  | none => notFoundJson

/-- The debug `console.log` lines `getDrinkInfo.execute` writes to stdout
before returning (lines 93-102). -/
def getDrinkInfoLogs (ds : List Drink) (argName : Option String) : List String :=
  ("Raw input: " ++ strOrUndef argName) ::
    ("Normalized input: " ++ normalize (strOrEmpty argName)) ::
    ds.map (fun d => "Raw drink name: " ++ d.name ++ " Normalized: " ++ normalize d.name)

/-- `tool.execute(args)`: the stdout debug lines it emits and the
`content` array it returns. -/
def execTool (ds : List Drink) : ToolImpl → ToolArgs → List String × List ContentItem
  | .getDrinkNames, _ => ([], [⟨"text", namesJson ds⟩])
  | .getDrinkInfo, args =>
      (getDrinkInfoLogs ds args.name, [⟨"text", getDrinkInfoText ds args.name⟩])

/-! ## Request dispatch (`main`, lines 120-185) -/

/-- Handling of one parsed request: the sequence of independent `if` blocks
of the server main loop, in source order.  Only `initialize` additionally
checks `json.jsonrpc === "2.0"`.  No branch mutates the server data. -/
def serverHandle (σ : ServerState) (req : Request) : ServerState × List OutLine :=
  let o1 :=
    if req.jsonrpc = "2.0" ∧ req.method = "initialize" then
      [OutLine.response (sendResponse req.id
        (.initResult "2025-03-26" ⟨⟨true⟩, ⟨true⟩⟩ serverInfo))]
    else []
  let o2 :=
    if req.method = "tools/list" then
      [OutLine.response (sendResponse req.id (.toolsList (σ.tools.map (·.decl))))]
    else []
  let o3 :=
    if req.method = "tools/call" then
      match σ.tools.find? (fun t => some t.decl.name = req.params.name) with
      | some t =>
          let r := execTool σ.drinks t.impl req.params.arguments
          (r.1.map OutLine.debug) ++
            [OutLine.response (sendResponse req.id (.toolContent r.2))]
      | none =>
          [OutLine.response (sendResponse req.id (.errorObj (-32602)
            ("MCP error -32602: Tool " ++ strOrUndef req.params.name ++ " not found")))]
    else []
  let o4 :=
    if req.method = "resources/list" then
      [OutLine.response (sendResponse req.id
        (.resourcesList (σ.resources.map (fun r => ⟨r.uri, r.name⟩))))]
    else []
  let o5 :=
    if req.method = "resources/read" then
      match σ.resources.find? (fun r => some r.uri = req.params.uri) with
      | some _ =>
          [OutLine.response (sendResponse req.id
            (.contents [⟨"menu://app", drinksArrayJson σ.drinks⟩]))]
      | none =>
          [OutLine.response (sendResponse req.id (.errorObj (-32602) "Resource not found"))]
    else []
  let o6 :=
    if req.method = "ping" then
      [OutLine.response (sendResponse req.id .emptyObj)]
    else []
  (σ, o1 ++ o2 ++ o3 ++ o4 ++ o5 ++ o6)

/-- An inbound line of the server: `JSON.parse` either yields a request
object or throws. -/
inductive InLine where
  | malformed (raw : String)
  | valid (req : Request)
deriving DecidableEq, Repr

/-- One iteration of `for await (const line of rl)`: a parse failure is
caught, logged to stderr and skipped (lines 181-183). -/
def serverHandleLine (σ : ServerState) : InLine → ServerState × List OutLine
  | .malformed _ => (σ, [])
  | .valid req => serverHandle σ req

/-- The whole server main loop over a stream of inbound lines. -/
def serverMain (σ : ServerState) : List InLine → List OutLine
  | [] => []
  | l :: ls =>
      let r := serverHandleLine σ l
      r.2 ++ serverMain r.1 ls

/-! ## Client reply handling (`client.ts` lines 57-76 and
`client_open_ai.ts` lines 127-146; the two `send` functions are identical)

`send(method, params, isNotification?)` writes
`{jsonrpc:"2.0", method, params, id: isNotification ? undefined : lastId++}`
and, for a non-notification, awaits one line and returns
`JSON.parse(json).result`.  There is no error-field check and no try/catch:
a line that is not JSON makes `JSON.parse` throw out of `send`. -/

/-- A parsed reply envelope as the client sees it. -/
structure ReplyEnvelope where
  id : Option Int := none
  result : Option ResultPayload := none
  error : Option (Int × String) := none
deriving DecidableEq, Repr

/-- A line arriving on the inbound transport of the client. -/
inductive ReplyLine where
  | malformed (raw : String)
  | valid (env : ReplyEnvelope)
deriving DecidableEq, Repr

/-- The receive half of `send`: `JSON.parse(json).result`.  A malformed line
makes `JSON.parse` throw (modelled as `Except.error`); the `result` field of
a valid envelope is returned as-is — any `error` field is never looked at. -/
def readReply : ReplyLine → Except String (Option ResultPayload)
  | .malformed raw => .error ("JSON.parse: unexpected token in " ++ raw)
  | .valid env => .ok env.result

/-- How a server stdout line is seen by the client: a `sendResponse` line
parses back to its envelope; a debug line (they all start with a bare word
such as `Raw input:`) is not a JSON document. -/
def lineOf : OutLine → ReplyLine
  | .debug s => .malformed s
  | .response (.result id p) => .valid { id := id, result := some p }
  | .response (.error id c m) => .valid { id := id, error := some (c, m) }

/-- Outcome of one sequential `call()`. -/
inductive CallOutcome where
  | ok (result : Option ResultPayload)
  | exn (msg : String)
  | blocked
deriving DecidableEq, Repr

/-- `k` sequential `call()` invocations reading from a fixed inbound stream,
the first call carrying identifier `n`.  A thrown `JSON.parse` rejects the
whole async main, so no later call runs; an exhausted stream blocks the
current call forever (`rl.question` never resolves). -/
def callsAgainst : Nat → Nat → List ReplyLine → List (Nat × CallOutcome)
  | 0, _, _ => []
  | _ + 1, n, [] => [(n, .blocked)]
  | k + 1, n, l :: ls =>
      match readReply l with
      | .error e => [(n, .exn e)]
      | .ok r => (n, .ok r) :: callsAgainst k (n + 1) ls

/-! ## Client/server session (both clients against this server)

The client is single-flight: it awaits each reply before the next send, so
the composition is the sequential interleaving below.  `lastId` starts at 0
and `lastId++` runs only on the non-notification branch. -/

/-- The operations a client session performs against the server. -/
inductive ClientOp where
  | call (method : String) (params : Params)
  | notify (method : String) (params : Params)
deriving DecidableEq, Repr

/-- The request `send` serializes: `jsonrpc` is always `"2.0"`; a
notification omits `id` (the `undefined` property is dropped by
`JSON.stringify`). -/
def mkReq (id : Option Int) (method : String) (params : Params) : Request :=
  ⟨"2.0", id, method, params⟩

/-- Run a session: for each op the request is written, the server consumes
it and appends its stdout lines to the pending inbound buffer; a `call`
then reads exactly one buffered line.  Returns, per `call`, the identifier
it sent and its outcome.  A thrown parse error or a forever-blocked read
ends the session (nothing after it runs). -/
def runSession (σ : ServerState) (n : Nat) (buf : List ReplyLine) :
    List ClientOp → List (Nat × CallOutcome)
  | [] => []
  | .notify m p :: ops =>
      let r := serverHandleLine σ (.valid (mkReq none m p))
      runSession r.1 n (buf ++ r.2.map lineOf) ops
  | .call m p :: ops =>
      let r := serverHandleLine σ (.valid (mkReq (some (n : Int)) m p))
      match buf ++ r.2.map lineOf with
      | [] => [(n, .blocked)]
      | l :: ls =>
          match readReply l with
          | .error e => [(n, .exn e)]
          | .ok res => (n, .ok res) :: runSession r.1 (n + 1) ls ops

/-! ## Tool invocation loop (`client_open_ai.ts`, `ai` branch, lines 282-403)

The Completion Client is an external collaborator; a stub for it is a
script: the list of responses it returns turn after turn.  Each response is
either a plain string (terminal answer) or a tool-call list. -/

/-- The `function` member of an OpenAI-shaped tool call. -/
structure FnSpec where
  name : String
  arguments : String
deriving DecidableEq, Repr

/-- A tool call as returned by the model.  The code reads both the OpenAI
shape (`function.name` / `function.arguments`) and the Anthropic shape
(`name` / `input`) through `tc.function?.name || tc.name` and
`tc.function?.arguments || tc.input`. -/
structure ModelToolCall where
  id : String
  type : String
  function : Option FnSpec := none
  name : Option String := none
  input : Option String := none
deriving DecidableEq, Repr

/-- One Completion Client response: `typeof promptResult === "string"` or a
tool-call list (a single non-array tool call is wrapped into a list by
`Array.isArray(promptResult) ? promptResult : [promptResult]`). -/
inductive ModelResponse where
  | text (s : String)
  | calls (tcs : List ModelToolCall)
deriving DecidableEq, Repr

/-- JavaScript `a || b` on two possibly-undefined strings: an empty string
is falsy. -/
def jsOr (a b : Option String) : Option String :=
  match a with
  | some s => if s = "" then b else some s
  | none => b

/-- `toolCall.function?.name || toolCall.name`. -/
def effName (tc : ModelToolCall) : Option String :=
  jsOr (tc.function.map FnSpec.name) tc.name

/-- `toolCall.function?.arguments || toolCall.input`. -/
def effArgs (tc : ModelToolCall) : Option String :=
  jsOr (tc.function.map FnSpec.arguments) tc.input

/-- Loop-detection signature of the current turn (lines 325-332):
`` results.map(tc => `${name}:${args}`).join("|") `` with `undefined`
rendered by the template literal. -/
def signatureOf (tcs : List ModelToolCall) : String :=
  String.intercalate "|" (tcs.map (fun tc =>
    strOrUndef (effName tc) ++ ":" ++ strOrUndef (effArgs tc)))

/-- Entries of the `tool_calls` array of the assistant message
(`{id, type, function}`, line 316-320). -/
structure AssistantCall where
  id : String
  type : String
  function : Option FnSpec
deriving DecidableEq, Repr

/-- A conversation message of the OpenAI client (`ChatMessage` plus the
`content: null` assistant form). -/
structure ChatMessage where
  role : String
  content : Option String
  tool_call_id : Option String := none
  tool_calls : List AssistantCall := []
deriving DecidableEq, Repr

/-- The hard-coded system prompt (lines 202-206). -/
def systemPromptMsg : ChatMessage :=
  { role := "system",
    content := some ("You are a helpful coffee shop assistant. When asked for recommendations, use the available drink information and make a judgment. Do not repeatedly request the same information. After you have all drink details, always answer the user\x27s question directly. If you already have all drink info, do not call tools again.") }

/-- External effects the loop body calls into: `rpc` is
`send("tools/call", {name, arguments})` followed by reading
`content[0].text`; `parseDrink` is the best-effort `JSON.parse` of that
text together with the truthiness test
`parsed && parsed.name && parsed.price && parsed.description`
(lines 374-382). -/
structure Env where
  rpc : Option String → Option String → String
  parseDrink : String → Option Drink

/-- The human-readable reformatting of one tool result string:
`` `${parsed.name}: $${parsed.price} - ${parsed.description}` `` when the
best-effort parse succeeds, the raw text otherwise. -/
def formatToolResult (env : Env) (raw : String) : String :=
  match env.parseDrink raw with
  | some d => d.name ++ ": $" ++ Nat.repr d.price ++ " - " ++ d.description
  | none => raw

/-- Loop state, with ghost trace fields: `executed` logs every
`send("tools/call", ...)` in order, `maxRepeat` the largest value
`toolCallRepeatCount` ever took, `turns` the number of Completion Client
responses consumed. -/
structure OrchState where
  messages : List ChatMessage
  history : List String
  repeatCount : Nat
  lastSignature : String
  executed : List (Option String × Option String)
  maxRepeat : Nat
  turns : Nat
deriving DecidableEq, Repr

/-- Consume one Completion Client response. -/
def OrchState.bump (st : OrchState) : OrchState := { st with turns := st.turns + 1 }

/-- Push the assistant message recording the tool calls of this turn (lines
313-322). -/
def pushAssistant (st : OrchState) (tcs : List ModelToolCall) : OrchState :=
  { st with messages := st.messages ++
      [{ role := "assistant", content := none,
         tool_calls := tcs.map (fun tc => ⟨tc.id, tc.type, tc.function⟩) }] }

/-- Push a user message. -/
def pushUser (st : OrchState) (s : String) : OrchState :=
  { st with messages := st.messages ++ [{ role := "user", content := some s }] }

/-- The synthetic summarisation prompt of the loop guard (lines 341-345);
`summary` is `toolCallHistory.join("\n")`. -/
def forcedPrompt (history : List String) : String :=
  "You have already received all drink information. Here is a summary:\n" ++
    String.intercalate "\n" history ++
    "\nPlease answer the user\x27s question directly."

/-- State after consuming a tool-call response and running the
signature/repeat bookkeeping (lines 313-338): push the assistant message,
then compare the signature with `lastToolCallSignature` — on a hit increment
`toolCallRepeatCount`, otherwise reset it to 0 and store the new
signature. -/
def turnState (st : OrchState) (tcs : List ModelToolCall) : OrchState :=
  let st0 := pushAssistant st.bump tcs
  let sig := signatureOf tcs
  let rc := if sig = st0.lastSignature then st0.repeatCount + 1 else 0
  let ls := if sig = st0.lastSignature then st0.lastSignature else sig
  { st0 with repeatCount := rc, lastSignature := ls, maxRepeat := max st0.maxRepeat rc }

/-- Execute one requested tool call (lines 355-394): only entries of type
`"function"` or `"tool_use"` are invoked; the (reformatted) result string is
appended to the history and, as a tool-role message carrying the
originating `toolCall.id`, to the conversation. -/
def execOne (env : Env) (st : OrchState) (tc : ModelToolCall) : OrchState :=
  if tc.type = "function" ∨ tc.type = "tool_use" then
    let raw := env.rpc (effName tc) (effArgs tc)
    let trs := formatToolResult env raw
    { st with
      history := st.history ++ [trs],
      messages := st.messages ++
        [{ role := "tool", content := some trs, tool_call_id := some tc.id }],
      executed := st.executed ++ [(effName tc, effArgs tc)] }
  else st

/-- `for (const toolCall of results) ...`, in model order. -/
def execAll (env : Env) (st : OrchState) : List ModelToolCall → OrchState
  | [] => st
  | tc :: tcs => execAll env (execOne env st tc) tcs

/-- The answer printed when the forced follow-up response comes back: text
is printed and marks the final answer; anything else leaves no answer
(lines 346-351). -/
def answerOf : ModelResponse → Option String
  | .text s => some s
  | .calls _ => none

/-- Result of a finished loop. -/
structure OrchResult where
  state : OrchState
  answer : Option String
  forced : Bool
deriving DecidableEq, Repr

/-- The `while (!finalAnswerGiven)` loop (lines 301-402), run against a
Completion Client stub given as the list of its successive responses (head
= the response being examined, tail = what later `callAIWithTools` calls
will return).  `none` models a run that needs more stub responses than
provided. -/
def orchRun (env : Env) : List ModelResponse → OrchState → Option OrchResult
  | [], _ => none
  | .text s :: _, st => some { state := st.bump, answer := some s, forced := false }
  | .calls tcs :: rest, st =>
      let st2 := turnState st tcs
      if st2.repeatCount ≥ 2 then
        match rest with
        | [] => none
        | next :: _ =>
            some { state := (pushUser st2 (forcedPrompt st2.history)).bump,
                   answer := answerOf next, forced := true }
      else
        orchRun env rest (execAll env st2 tcs)

/-- Initial loop state for one user question (lines 292-299):
`[systemPrompt, {role:"user", content:prompt}]`, empty history, zero repeat
count, empty signature. -/
def initOrchState (prompt : String) : OrchState :=
  { messages := [systemPromptMsg, { role := "user", content := some prompt }],
    history := [], repeatCount := 0, lastSignature := "",
    executed := [], maxRepeat := 0, turns := 0 }

/-- One user question: the initial `callAIWithTools` consumes the first
stub response, then the loop runs. -/
def orchestrate (env : Env) (prompt : String) (script : List ModelResponse) :
    Option OrchResult :=
  orchRun env script (initOrchState prompt)

/-! ## Derived definitions used by the statements below -/

/-- The `(name, arguments)` pair `send("tools/call", ...)` is given for one
model tool call. -/
def sentOf (tc : ModelToolCall) : Option String × Option String := (effName tc, effArgs tc)

/-- The (possibly reformatted) result string one executed tool call
contributes to `toolCallHistory`. -/
def resultStr (env : Env) (tc : ModelToolCall) : String :=
  formatToolResult env (env.rpc (effName tc) (effArgs tc))

/-- The tool-role conversation message one executed tool call appends. -/
def toolMsgOf (env : Env) (tc : ModelToolCall) : ChatMessage :=
  { role := "tool", content := some (resultStr env tc), tool_call_id := some tc.id }

/-- The assistant message recorded for a single-call turn. -/
def asstMsgOf (tc : ModelToolCall) : ChatMessage :=
  { role := "assistant", content := none, tool_calls := [⟨tc.id, tc.type, tc.function⟩] }

/-- Loop state after the first turn of a constantly-repeating single-call
stub: one executed call, repeat count 0. -/
def guardState1 (env : Env) (prompt : String) (tc : ModelToolCall) : OrchState :=
  { messages := [systemPromptMsg, { role := "user", content := some prompt },
      asstMsgOf tc, toolMsgOf env tc],
    history := [resultStr env tc], repeatCount := 0, lastSignature := signatureOf [tc],
    executed := [sentOf tc], maxRepeat := 0, turns := 1 }

/-- Loop state after the second identical turn: two executed calls, repeat
count 1. -/
def guardState2 (env : Env) (prompt : String) (tc : ModelToolCall) : OrchState :=
  { messages := [systemPromptMsg, { role := "user", content := some prompt },
      asstMsgOf tc, toolMsgOf env tc, asstMsgOf tc, toolMsgOf env tc],
    history := [resultStr env tc, resultStr env tc], repeatCount := 1,
    lastSignature := signatureOf [tc],
    executed := [sentOf tc, sentOf tc], maxRepeat := 1, turns := 2 }

/-- A concrete external environment for witnesses: every tool call returns
the text `ok`, which does not parse as a drink record. -/
def envC : Env := { rpc := fun _ _ => "ok", parseDrink := fun _ => none }

/-- A concrete OpenAI-shaped tool call. -/
def tcW : ModelToolCall :=
  { id := "call_1", type := "function", function := some ⟨"getDrinkNames", "\x7b\x7d"⟩ }

/-- A second concrete tool call with a different signature. -/
def tcW2 : ModelToolCall :=
  { id := "call_2", type := "function",
    function := some ⟨"getDrinkInfo", "\x7b\"name\":\"latte\"\x7d"⟩ }

/-- A reply envelope carrying an `error` field and no `result` field. -/
def errEnvelope : ReplyEnvelope := { id := some 0, error := some ((-32602 : Int), "boom") }

/-- The six methods the server main loop dispatches on. -/
def knownMethods : List String :=
  ["initialize", "tools/list", "tools/call", "resources/list", "resources/read", "ping"]

/-- The Flat White record of the catalog. -/
def flatWhite : Drink :=
  ⟨"Flat White", 7, "A flat white is a coffee drink made with espresso and steamed milk."⟩

/-- The bootstrap sequence both clients run after startup.  The server
ignores the params of these requests, so their modelled fields are empty. -/
def bootstrapOps : List ClientOp :=
  [.call "initialize" {}, .notify "notifications/initialized" {},
   .call "tools/list" {}, .call "resources/list" {}]

/-- The `initialize` result of the server. -/
def initPayload : ResultPayload :=
  .initResult "2025-03-26" ⟨⟨true⟩, ⟨true⟩⟩ serverInfo

/-- The tool catalog as served by `tools/list`. -/
def toolCatalog : List ToolDecl := tools.map (·.decl)

/-- The resource catalog as served by `resources/list`. -/
def resourceCatalog : List ResourceDecl := resources.map (fun r => ⟨r.uri, r.name⟩)

/-- The per-call outcomes of one bootstrap run. -/
def bootstrapResults : List CallOutcome :=
  [.ok (some initPayload), .ok (some (.toolsList toolCatalog)),
   .ok (some (.resourcesList resourceCatalog))]

/-- The bootstrap sequence repeated `k` times in one session. -/
def repeatedBootstrap : Nat → List ClientOp
  | 0 => []
  | k + 1 => bootstrapOps ++ repeatedBootstrap k

/-! ## Helper lemmas -/

/-- Request handling never changes the server data. -/
lemma serverHandleLine_fst (σ : ServerState) (l : InLine) : (serverHandleLine σ l).1 = σ := by
  cases l with
  | malformed raw => rfl
  | valid req => rfl

/-- Executing one typed tool call appends one history entry, one tool-role
message and one `tools/call` invocation. -/
lemma execOne_spec (env : Env) (st : OrchState) (tc : ModelToolCall)
    (h : tc.type = "function" ∨ tc.type = "tool_use") :
    execOne env st tc =
      { st with history := st.history ++ [resultStr env tc],
                messages := st.messages ++ [toolMsgOf env tc],
                executed := st.executed ++ [sentOf tc] } := by
  simp [execOne, h, resultStr, toolMsgOf, sentOf]

/-- Executing a turn of typed tool calls appends their results in model
order and touches nothing else. -/
lemma execAll_spec (env : Env) (tcs : List ModelToolCall)
    (h : ∀ tc ∈ tcs, tc.type = "function" ∨ tc.type = "tool_use") :
    ∀ st : OrchState, execAll env st tcs =
      { st with history := st.history ++ tcs.map (resultStr env),
                messages := st.messages ++ tcs.map (toolMsgOf env),
                executed := st.executed ++ tcs.map sentOf } := by
  induction tcs with
  | nil => intro st; simp [execAll]
  | cons tc tcs ih =>
      intro st
      rw [execAll, execOne_spec env st tc (h tc (List.mem_cons_self tc tcs)),
        ih (fun t ht => h t (List.mem_cons_of_mem tc ht))]
      simp

/-- Field-level description of the signature/repeat bookkeeping. -/
lemma turnState_fields (st : OrchState) (tcs : List ModelToolCall) :
    (turnState st tcs).repeatCount =
        (if signatureOf tcs = st.lastSignature then st.repeatCount + 1 else 0) ∧
      (turnState st tcs).lastSignature = signatureOf tcs ∧
      (turnState st tcs).history = st.history ∧
      (turnState st tcs).executed = st.executed ∧
      (turnState st tcs).turns = st.turns + 1 ∧
      (turnState st tcs).maxRepeat =
        max st.maxRepeat (if signatureOf tcs = st.lastSignature then st.repeatCount + 1 else 0) ∧
      (turnState st tcs).messages = st.messages ++
        [{ role := "assistant", content := none,
           tool_calls := tcs.map (fun tc => ⟨tc.id, tc.type, tc.function⟩) }] := by
  refine ⟨rfl, ?_, rfl, rfl, rfl, rfl, rfl⟩
  simp only [turnState, pushAssistant, OrchState.bump]
  split <;> simp_all

/-- When the repeat guard has not fired, a tool-call turn proceeds by
executing the calls and looping. -/
lemma orchRun_calls_step (env : Env) (tcs : List ModelToolCall)
    (rest : List ModelResponse) (st : OrchState)
    (h : (turnState st tcs).repeatCount < 2) :
    orchRun env (.calls tcs :: rest) st = orchRun env rest (execAll env (turnState st tcs) tcs) := by
  conv_lhs => rw [orchRun.eq_def]
  simp only []
  rw [if_neg (by omega)]

/-- When the repeat guard fires, the loop pushes the summarisation prompt,
consumes one more response and stops. -/
lemma orchRun_guard_step (env : Env) (tcs : List ModelToolCall)
    (next : ModelResponse) (rest : List ModelResponse) (st : OrchState)
    (h : (turnState st tcs).repeatCount ≥ 2) :
    orchRun env (.calls tcs :: next :: rest) st =
      some { state := (pushUser (turnState st tcs) (forcedPrompt (turnState st tcs).history)).bump,
             answer := answerOf next, forced := true } := by
  conv_lhs => rw [orchRun.eq_def]
  simp only []
  rw [if_pos h]

/-- The worker of `String.intercalate` only ever extends its accumulator. -/
lemma intercalate_go_data (s : String) :
    ∀ (xs : List String) (acc : String),
      ∃ t, (String.intercalate.go acc s xs).data = acc.data ++ t := by
  intro xs
  induction xs with
  | nil => intro acc; exact ⟨[], by simp [String.intercalate.go]⟩
  | cons y ys ih =>
      intro acc
      obtain ⟨t, ht⟩ := ih (acc ++ s ++ y)
      refine ⟨s.data ++ y.data ++ t, ?_⟩
      rw [String.intercalate.go, ht]
      simp [String.data_append]

/-- The signature of a nonempty tool-call list contains a colon, so it is
never the empty initial `lastToolCallSignature`. -/
lemma signatureOf_ne_empty (tcs : List ModelToolCall) (h : tcs ≠ []) :
    signatureOf tcs ≠ "" := by
  match tcs, h with
  | tc :: tcs, _ =>
    intro he
    have hd := congrArg String.data he
    rw [signatureOf] at hd
    simp only [List.map_cons, String.intercalate] at hd
    obtain ⟨t, ht⟩ := intercalate_go_data "|" (tcs.map (fun tc =>
      strOrUndef (effName tc) ++ ":" ++ strOrUndef (effArgs tc)))
      (strOrUndef (effName tc) ++ ":" ++ strOrUndef (effArgs tc))
    rw [ht] at hd
    simp [String.data_append] at hd

/-- One bootstrap run against the server: three correlated results, state
and buffer back to empty, identifier counter advanced by three. -/
lemma bootstrap_step (n : Nat) (ops : List ClientOp) :
    runSession initServerState n [] (bootstrapOps ++ ops) =
      [(n, .ok (some initPayload)), (n + 1, .ok (some (.toolsList toolCatalog))),
        (n + 2, .ok (some (.resourcesList resourceCatalog)))] ++
        runSession initServerState (n + 3) [] ops := by
  simp [bootstrapOps, runSession, serverHandleLine, serverHandle, mkReq, sendResponse,
    lineOf, readReply, initPayload, toolCatalog, resourceCatalog, initServerState]

/-- A run of distinct-signature tool-call turns followed by a text answer:
every call is executed once in order, the repeat counter never moves, and
the text is the final answer. -/
lemma passthrough_aux (env : Env) (s : String) :
    ∀ (tls : List (List ModelToolCall)) (st : OrchState),
      (∀ l ∈ tls, ∀ tc ∈ l, tc.type = "function" ∨ tc.type = "tool_use") →
      List.Chain' (fun a b => a ≠ b) (tls.map signatureOf) →
      (∀ l0, tls.head? = some l0 → signatureOf l0 ≠ st.lastSignature) →
      ∃ res : OrchResult,
        orchRun env (tls.map ModelResponse.calls ++ [ModelResponse.text s]) st = some res ∧
          res.state.executed = st.executed ++ (tls.map (fun l => l.map sentOf)).flatten ∧
          res.answer = some s ∧
          res.forced = false ∧
          res.state.maxRepeat = st.maxRepeat ∧
          res.state.turns = st.turns + tls.length + 1 := by
  intro tls
  induction tls with
  | nil =>
      intro st _ _ _
      refine ⟨_, rfl, ?_, rfl, rfl, rfl, ?_⟩ <;> simp [OrchState.bump]
  | cons l tls ih =>
      intro st hty hchain hfirst
      have hf : signatureOf l ≠ st.lastSignature := hfirst l rfl
      have hrc : (turnState st l).repeatCount = 0 := by
        rw [(turnState_fields _ _).1, if_neg hf]
      rw [List.map_cons, List.cons_append,
        orchRun_calls_step env l _ st (by omega),
        execAll_spec env l (hty l (List.mem_cons_self l tls))]
      rw [List.map_cons, List.chain'_cons'] at hchain
      obtain ⟨res, hrun, hex, hans, hforced, hmax, hturns⟩ :=
        ih { turnState st l with
              history := (turnState st l).history ++ l.map (resultStr env),
              messages := (turnState st l).messages ++ l.map (toolMsgOf env),
              executed := (turnState st l).executed ++ l.map sentOf }
          (fun l2 hl2 => hty l2 (List.mem_cons_of_mem l hl2))
          hchain.2
          (by
            intro l0 hl0
            have := hchain.1 (signatureOf l0) (by rw [List.head?_map, hl0]; rfl)
            simpa [(turnState_fields st l).2.1] using this.symm)
      refine ⟨res, hrun, ?_, hans, hforced, ?_, ?_⟩
      · rw [hex]
        simp [(turnState_fields st l).2.2.2.1, List.append_assoc]
      · rw [hmax]
        simp [(turnState_fields st l).2.2.2.2.2.1, if_neg hf]
      · rw [hturns]
        simp [(turnState_fields st l).2.2.2.2.1]
        omega

/-! ## Claim theorems -/

/-- Claim C1: against a Completion Client stub that returns the identical
single tool-call request on every turn, the orchestrator executes that call
only twice (at most 3 `tools/call` invocations), then the repeat guard
fires: the calls are not executed again, a synthetic user message
summarising the accumulated tool-result history is appended (it is the last
conversation message), the Completion Client is consulted exactly once more
(4 responses consumed in total), and the loop terminates whether that final
response is text or another tool-call list. -/
theorem loop_guard_forces_termination (env : Env) (prompt : String) (tc : ModelToolCall)
    (htype : tc.type = "function" ∨ tc.type = "tool_use")
    (r3 : ModelResponse) (rest : List ModelResponse) :
    ∃ res : OrchResult,
      orchestrate env prompt
          (.calls [tc] :: .calls [tc] :: .calls [tc] :: r3 :: rest) = some res ∧
        res.state.executed = [sentOf tc, sentOf tc] ∧
        res.state.executed.length ≤ 3 ∧
        res.forced = true ∧
        res.answer = answerOf r3 ∧
        res.state.turns = 4 ∧
        res.state.history = [resultStr env tc, resultStr env tc] ∧
        res.state.messages.getLast? =
          some { role := "user",
                 content := some (forcedPrompt [resultStr env tc, resultStr env tc]) } := by
  have hsig : signatureOf [tc] ≠ "" := signatureOf_ne_empty [tc] (by simp)
  have hty : ∀ t ∈ [tc], t.type = "function" ∨ t.type = "tool_use" := by
    intro t ht
    rw [List.mem_singleton] at ht
    subst ht
    exact htype
  have e1 : execAll env (turnState (initOrchState prompt) [tc]) [tc] =
      guardState1 env prompt tc := by
    rw [execAll_spec env [tc] hty]
    simp [turnState, pushAssistant, OrchState.bump, initOrchState, hsig, guardState1, asstMsgOf]
  have e2 : execAll env (turnState (guardState1 env prompt tc) [tc]) [tc] =
      guardState2 env prompt tc := by
    rw [execAll_spec env [tc] hty]
    simp [turnState, pushAssistant, OrchState.bump, guardState1, guardState2, asstMsgOf]
  rw [orchestrate, orchRun_calls_step env [tc] _ _
      (by rw [(turnState_fields _ _).1]; simp [initOrchState, hsig]),
    e1,
    orchRun_calls_step env [tc] _ _
      (by rw [(turnState_fields _ _).1]; simp [guardState1]),
    e2,
    orchRun_guard_step env [tc] r3 rest _
      (by rw [(turnState_fields _ _).1]; simp [guardState2])]
  refine ⟨_, rfl, ?_, ?_, rfl, rfl, ?_, ?_, ?_⟩ <;>
    simp [pushUser, OrchState.bump, turnState, pushAssistant, guardState2, List.getLast?_concat]

/-- Witness for C1 at a concrete stub, environment and prompt. -/
theorem loop_guard_forces_termination_witness :
    ∃ res : OrchResult,
      orchestrate envC "q"
          (.calls [tcW] :: .calls [tcW] :: .calls [tcW] :: ModelResponse.text "done" :: []) =
          some res ∧
        res.state.executed = [sentOf tcW, sentOf tcW] ∧
        res.state.executed.length ≤ 3 ∧
        res.forced = true ∧
        res.answer = answerOf (ModelResponse.text "done") ∧
        res.state.turns = 4 ∧
        res.state.history = [resultStr envC tcW, resultStr envC tcW] ∧
        res.state.messages.getLast? =
          some { role := "user",
                 content := some (forcedPrompt [resultStr envC tcW, resultStr envC tcW]) } :=
  loop_guard_forces_termination envC "q" tcW (by decide) (ModelResponse.text "done") []

/-- Claim C2: against a stub returning pairwise-distinct (nonempty, typed)
tool-call turns followed by a plain-string answer, the orchestrator
executes each requested call exactly once, in the order returned, returns
the text as the terminal answer, never fires the guard, and
`toolCallRepeatCount` never exceeds 0 — in particular it never reaches the
threshold 2. -/
theorem distinct_calls_pass_through (env : Env) (prompt : String)
    (tls : List (List ModelToolCall)) (s : String)
    (hne : ∀ l ∈ tls, l ≠ [])
    (hty : ∀ l ∈ tls, ∀ tc ∈ l, tc.type = "function" ∨ tc.type = "tool_use")
    (hdist : (tls.map signatureOf).Pairwise (fun a b => a ≠ b)) :
    ∃ res : OrchResult,
      orchestrate env prompt (tls.map ModelResponse.calls ++ [ModelResponse.text s]) =
          some res ∧
        res.state.executed = (tls.map (fun l => l.map sentOf)).flatten ∧
        res.answer = some s ∧
        res.forced = false ∧
        res.state.maxRepeat = 0 ∧
        res.state.turns = tls.length + 1 := by
  obtain ⟨res, hrun, hex, hans, hforced, hmax, hturns⟩ :=
    passthrough_aux env s tls (initOrchState prompt) hty hdist.chain'
      (by
        intro l0 hl0
        exact signatureOf_ne_empty l0 (hne l0 (List.mem_of_mem_head? (Option.mem_def.mpr hl0))))
  refine ⟨res, hrun, ?_, hans, hforced, ?_, ?_⟩
  · rw [hex]; simp [initOrchState]
  · rw [hmax]; rfl
  · rw [hturns]; simp [initOrchState]

/-- Witness for C2 on a two-turn script with distinct signatures. -/
theorem distinct_calls_pass_through_witness :
    ∃ res : OrchResult,
      orchestrate envC "q"
          ([[tcW], [tcW2]].map ModelResponse.calls ++ [ModelResponse.text "done"]) = some res ∧
        res.state.executed = ([[tcW], [tcW2]].map (fun l => l.map sentOf)).flatten ∧
        res.answer = some "done" ∧
        res.forced = false ∧
        res.state.maxRepeat = 0 ∧
        res.state.turns = [[tcW], [tcW2]].length + 1 :=
  distinct_calls_pass_through envC "q" [[tcW], [tcW2]] "done"
    (by decide) (by decide) (by decide)

/-- Claim C3, counterexample: a reply envelope carrying `error` and no
`result` makes `send` complete normally with `undefined` — it does not fail
with a `RemoteError` (no such check exists in either client). -/
theorem error_reply_completes_normally :
    errEnvelope.result = none ∧ errEnvelope.error.isSome = true ∧
    readReply (.valid errEnvelope) = .ok none := ⟨rfl, rfl, rfl⟩

/-- Claim C3, amended: for every reply envelope carrying an `error` field
and no `result` field, the `send` primitive completes normally and returns
`undefined` (`none`) — the error code and message are ignored and no
exception of any kind is raised. -/
theorem error_reply_returns_none (e : ReplyEnvelope) (c : Int) (m : String)
    (he : e.error = some (c, m)) (hr : e.result = none) :
    readReply (.valid e) = .ok none := by
  simp [readReply, hr]

/-- Witness for the amended C3 at a concrete error envelope. -/
theorem error_reply_returns_none_witness :
    errEnvelope.error = some ((-32602 : Int), "boom") ∧ errEnvelope.result = none ∧
    readReply (.valid errEnvelope) = .ok none :=
  ⟨rfl, rfl, error_reply_returns_none errEnvelope (-32602) "boom" rfl rfl⟩

/-- Claim C4, counterexample: for an unknown tool name the server replies
with a top-level `result` envelope whose payload is the error object — no
emitted line is a top-level `error` envelope. -/
theorem unknown_tool_reply_is_result_shaped :
    (serverHandle initServerState (mkReq (some 7) "tools/call" { name := some "bogus" })).2 =
      [.response (.result (some 7)
        (.errorObj (-32602) "MCP error -32602: Tool bogus not found"))] ∧
    ((serverHandle initServerState (mkReq (some 7) "tools/call" { name := some "bogus" })).2.all
      (fun o => match o with | .response w => !w.isErrorEnvelope | .debug _ => true)) = true := by
  decide

/-- Claim C4, amended: a `tools/call` whose name matches no tool yields
`{"jsonrpc":"2.0","id":N,"result":{"error":{"code":-32602,...}}}` — the
error object is nested inside the top-level `result` field, because
`sendResponse` only builds `result` envelopes; a matching name yields a
top-level `result` whose payload is a single text content item. -/
theorem toolsCall_reply_shapes (idv : Option Int) (nm : Option String) (args : ToolArgs)
    (h : ∀ t ∈ tools, some t.decl.name ≠ nm) :
    (serverHandle initServerState (mkReq idv "tools/call" { name := nm, arguments := args }) =
      (initServerState, [.response (.result idv (.errorObj (-32602)
        ("MCP error -32602: Tool " ++ strOrUndef nm ++ " not found")))])) ∧
    (∀ (idv2 : Option Int) (args2 : ToolArgs),
      serverHandle initServerState
          (mkReq idv2 "tools/call" { name := some "getDrinkNames", arguments := args2 }) =
        (initServerState,
          [.response (.result idv2 (.toolContent [⟨"text", namesJson drinks⟩]))])) ∧
    (∀ (idv2 : Option Int) (args2 : ToolArgs),
      serverHandle initServerState
          (mkReq idv2 "tools/call" { name := some "getDrinkInfo", arguments := args2 }) =
        (initServerState,
          (getDrinkInfoLogs drinks args2.name).map .debug ++
            [.response (.result idv2 (.toolContent
              [⟨"text", getDrinkInfoText drinks args2.name⟩]))])) := by
  have h1 := h ⟨⟨"getDrinkNames", "Get the names of the drinks in the shop",
      ⟨"object", [], []⟩⟩, .getDrinkNames⟩ (by decide)
  have h2 := h ⟨⟨"getDrinkInfo", "Get more info about the drink",
      ⟨"object", [⟨"name", "string"⟩], ["name"]⟩⟩, .getDrinkInfo⟩ (by decide)
  refine ⟨?_, ?_, ?_⟩
  · simp [serverHandle, mkReq, initServerState, tools, sendResponse, List.find?, h1, h2]
  · intro idv2 args2
    simp [serverHandle, mkReq, initServerState, tools, sendResponse, List.find?, execTool]
  · intro idv2 args2
    simp [serverHandle, mkReq, initServerState, tools, sendResponse, List.find?, execTool]

/-- Witness for the amended C4 at a concrete unknown tool name. -/
theorem toolsCall_reply_shapes_witness :
    serverHandle initServerState (mkReq (some 3) "tools/call" { name := some "nope" }) =
      (initServerState, [.response (.result (some 3) (.errorObj (-32602)
        ("MCP error -32602: Tool " ++ strOrUndef (some "nope") ++ " not found")))]) :=
  (toolsCall_reply_shapes (some 3) (some "nope") {} (by decide)).1

/-- Claim C5: in a tool-call turn on which the guard has not fired, the loop
invokes every requested call through `send("tools/call", {name, arguments})`
in model order, and appends, per call, the (best-effort reformatted) first
content text to the history and a tool-role message carrying the
originating call identifier to the conversation. -/
theorem tool_turn_executes_in_order (env : Env) (st : OrchState)
    (tcs : List ModelToolCall) (rest : List ModelResponse)
    (htype : ∀ tc ∈ tcs, tc.type = "function" ∨ tc.type = "tool_use")
    (hguard : (turnState st tcs).repeatCount < 2) :
    orchRun env (.calls tcs :: rest) st =
        orchRun env rest (execAll env (turnState st tcs) tcs) ∧
      (execAll env (turnState st tcs) tcs).executed = st.executed ++ tcs.map sentOf ∧
      (execAll env (turnState st tcs) tcs).history = st.history ++ tcs.map (resultStr env) ∧
      (execAll env (turnState st tcs) tcs).messages =
        (turnState st tcs).messages ++ tcs.map (toolMsgOf env) := by
  refine ⟨orchRun_calls_step env tcs rest st hguard, ?_, ?_, ?_⟩ <;>
    rw [execAll_spec env tcs htype] <;>
    simp [(turnState_fields st tcs).2.2.1, (turnState_fields st tcs).2.2.2.1]

/-- Witness for C5 on a concrete single-call turn. -/
theorem tool_turn_executes_in_order_witness :
    orchRun envC (.calls [tcW] :: []) (initOrchState "q") =
        orchRun envC [] (execAll envC (turnState (initOrchState "q") [tcW]) [tcW]) ∧
      (execAll envC (turnState (initOrchState "q") [tcW]) [tcW]).executed =
        (initOrchState "q").executed ++ [tcW].map sentOf ∧
      (execAll envC (turnState (initOrchState "q") [tcW]) [tcW]).history =
        (initOrchState "q").history ++ [tcW].map (resultStr envC) ∧
      (execAll envC (turnState (initOrchState "q") [tcW]) [tcW]).messages =
        (turnState (initOrchState "q") [tcW]).messages ++ [tcW].map (toolMsgOf envC) :=
  tool_turn_executes_in_order envC (initOrchState "q") [tcW] []
    (by decide) (by decide)

/-- Claim C6, failing-input evaluation: a single `call("tools/call",
{name:"getDrinkInfo", arguments:{name:"latte"}})` sends identifier 0, but
the server writes the debug line `Raw input: latte` to stdout before the
response, so the reply line the client reads is not JSON: `JSON.parse`
throws and the call never receives the envelope with id 0. -/
theorem getDrinkInfo_debug_breaks_correlation :
    runSession initServerState 0 []
        [.call "tools/call" { name := some "getDrinkInfo",
                              arguments := { name := some "latte" } }] =
      [(0, .exn "JSON.parse: unexpected token in Raw input: latte")] ∧
    (serverHandle initServerState (mkReq (some 0) "tools/call"
        { name := some "getDrinkInfo", arguments := { name := some "latte" } })).2.head? =
      some (.debug "Raw input: latte") := by decide

/-- Claim C7, counterexample: with the inbound stream
`[valid id 0, malformed, valid id 1]`, the first call succeeds but the
second call throws on the malformed line and never receives the valid
response for id 1 that follows it — the malformed line is not skipped on
the client side. -/
theorem malformed_reply_aborts_next_call :
    callsAgainst 2 0
        [.valid { id := some 0, result := some .emptyObj },
         .malformed "oops",
         .valid { id := some 1, result := some .emptyObj }] =
      [(0, .ok (some .emptyObj)), (1, .exn "JSON.parse: unexpected token in oops")] := by decide

/-- Claim C7, amended: a malformed line on the SERVER inbound stream is
logged and skipped, leaving the session and all other responses intact;
on the CLIENT inbound stream a malformed reply line is not skipped —
`JSON.parse` throws inside `send` and the in-flight call (and session)
fails. -/
theorem malformed_line_resilience_split :
    (∀ (σ : ServerState) (raw : String) (pre post : List InLine),
      serverMain σ (pre ++ .malformed raw :: post) =
        serverMain σ pre ++ serverMain σ post) ∧
    (∀ (n k : Nat) (raw : String) (ls : List ReplyLine),
      callsAgainst (k + 1) n (.malformed raw :: ls) =
        [(n, .exn ("JSON.parse: unexpected token in " ++ raw))]) := by
  constructor
  · intro σ raw pre post
    induction pre with
    | nil => simp [serverMain, serverHandleLine]
    | cons l pre ih =>
        simp only [List.cons_append, serverMain, serverHandleLine_fst, List.append_eq, ih,
          List.append_assoc]
  · intro n k raw ls
    simp [callsAgainst, readReply]

/-- Claim C8: no request handler mutates the server data, and re-running
the bootstrap sequence any number of times yields the identical tool and
resource catalogs (same names, descriptions, schemas, uris, in the same
order) on every run. -/
theorem bootstrap_idempotent :
    (∀ (σ : ServerState) (l : InLine), (serverHandleLine σ l).1 = σ) ∧
    (∀ k n : Nat, (runSession initServerState n [] (repeatedBootstrap k)).map (·.2) =
      (List.replicate k bootstrapResults).flatten) := by
  constructor
  · exact serverHandleLine_fst
  · intro k
    induction k with
    | zero => intro n; simp [repeatedBootstrap, runSession]
    | succ k ih =>
        intro n
        simp only [repeatedBootstrap, bootstrap_step, List.replicate_succ, List.flatten_cons,
          List.map_append, ih]
        simp [bootstrapResults]

/-- Claim C9: a valid request whose method is none of the six dispatched
ones gets no response line at all, whatever its `jsonrpc` or `id`; the
corresponding `call()` therefore blocks forever, while a
`notifications/initialized` notification is consumed silently. -/
theorem unknown_method_silent (σ : ServerState) (jv : String) (idv : Option Int)
    (m : String) (p : Params) (h : m ∉ knownMethods) :
    serverHandle σ ⟨jv, idv, m, p⟩ = (σ, []) ∧
    runSession initServerState 0 [] [.call m p] = [(0, .blocked)] ∧
    (∀ (σ2 : ServerState) (n : Nat) (buf : List ReplyLine) (p2 : Params) (ops : List ClientOp),
      runSession σ2 n buf (.notify "notifications/initialized" p2 :: ops) =
        runSession σ2 n buf ops) := by
  simp only [knownMethods, List.mem_cons, List.mem_singleton, not_or] at h
  obtain ⟨h1, h2, h3, h4, h5, h6⟩ := h
  refine ⟨?_, ?_, ?_⟩
  · simp [serverHandle, h1, h2, h3, h4, h5, h6]
  · simp [runSession, serverHandleLine, mkReq, serverHandle, h1, h2, h3, h4, h5, h6]
  · intro σ2 n buf p2 ops
    simp [runSession, serverHandleLine, mkReq, serverHandle]

/-- Witness for C9 at a concrete unknown method. -/
theorem unknown_method_silent_witness :
    serverHandle initServerState ⟨"2.0", some 5, "foo/bar", {}⟩ = (initServerState, []) ∧
    runSession initServerState 0 [] [.call "foo/bar" {}] = [(0, .blocked)] ∧
    (∀ (σ2 : ServerState) (n : Nat) (buf : List ReplyLine) (p2 : Params) (ops : List ClientOp),
      runSession σ2 n buf (.notify "notifications/initialized" p2 :: ops) =
        runSession σ2 n buf ops) :=
  unknown_method_silent initServerState "2.0" (some 5) "foo/bar" {} (by decide)

/-- Claim C10: `getDrinkInfo` matches case-insensitively after stripping
non-alphanumerics (the lookup depends only on the normalised input;
`flat-white`, `FLAT WHITE` and `flatwhite` all return the Flat White record
as JSON); when nothing matches it returns the successful text content
`{"error":"Drink not found"}` inside a top-level `result` envelope, never a
JSON-RPC error envelope. -/
theorem getDrinkInfo_normalized_matching :
    (∀ a b : Option String, normalize (strOrEmpty a) = normalize (strOrEmpty b) →
        getDrinkInfoText drinks a = getDrinkInfoText drinks b) ∧
    getDrinkInfoText drinks (some "flat-white") = drinkJson flatWhite ∧
    getDrinkInfoText drinks (some "FLAT WHITE") = drinkJson flatWhite ∧
    getDrinkInfoText drinks (some "flatwhite") = drinkJson flatWhite ∧
    (∀ o : Option String, (∀ d ∈ drinks, normalize d.name ≠ normalize (strOrEmpty o)) →
        getDrinkInfoText drinks o = notFoundJson) ∧
    (∀ (idv : Option Int) (args : ToolArgs),
      (serverHandle initServerState (mkReq idv "tools/call"
          { name := some "getDrinkInfo", arguments := args })).2 =
        (getDrinkInfoLogs drinks args.name).map .debug ++
          [.response (.result idv (.toolContent
            [⟨"text", getDrinkInfoText drinks args.name⟩]))]) := by
  refine ⟨?_, by decide, by decide, by decide, ?_, ?_⟩
  · intro a b hab
    simp only [getDrinkInfoText, drinkLookup, hab]
  · intro o ho
    have : drinks.find? (fun d => normalize d.name = normalize (strOrEmpty o)) = none := by
      rw [List.find?_eq_none]
      intro d hd
      simpa using ho d hd
    simp [getDrinkInfoText, drinkLookup, this]
  · intro idv args
    simp [serverHandle, mkReq, initServerState, tools, sendResponse, List.find?, execTool]

/-- Witness for C10 at a drink name outside the catalog. -/
theorem getDrinkInfo_normalized_matching_witness :
    getDrinkInfoText drinks (some "tea") = notFoundJson :=
  getDrinkInfo_normalized_matching.2.2.2.2.1 (some "tea") (by decide)

end MCP
